import Mathlib

/-!
# podded/api: the killmail query handlers

A shallow embedding of `api/api.go`: the two HTTP handlers
`HandleSingleKillmailEndpoint` and `HandleBulkKillmailEndpoint`, the helper
`error_print`, and the parts of the Go libraries they call (strings, strconv,
net/http response writer, gorilla/schema decoder, encoding/json field
omission, the document-store collection).

Go strings are modelled as Lean `String`s, Go `int`/`int32`/`int64` as `Int`
with explicit wrap-around where the source multiplies.
-/

set_option autoImplicit false

namespace Api

/-! ## strings.ReplaceAll and error_print (api.go 262-264) -/

/-- The double-quote character, the `old` argument of the source's ReplaceAll. -/
def dquote : Char := Char.ofNat 34

/-- The single-quote character. -/
def squote : Char := Char.ofNat 39

/-- Worker of `ReplaceAll` for a non-empty `old`: scans left to right,
replacing each non-overlapping occurrence of `old` by `new`. The first
argument counts the characters of a matched occurrence still to be skipped. -/
def replaceScan (old new : List Char) : Nat → List Char → List Char
  | _, [] => []
  | skip + 1, _ :: cs => replaceScan old new skip cs
  | 0, c :: cs =>
    if old.isPrefixOf (c :: cs) then new ++ replaceScan old new (old.length - 1) cs
    else c :: replaceScan old new 0 cs

/-- Go `strings.ReplaceAll(s, old, new)`: every non-overlapping instance of
`old` replaced by `new`; an empty `old` matches before every character and at
the end. -/
def ReplaceAll (s old new : String) : String :=
  if old.data = [] then
    String.mk (new.data ++ s.data.flatMap (fun c => c :: new.data))
  else
    String.mk (replaceScan old.data new.data 0 s.data)

/-- The fixed text before the error message in `error_print`. -/
def errorOpen : String := "\x7b \x22message\x22 : \x22"

/-- The fixed text after the error message in `error_print`. -/
def errorClose : String := "\x22 \x7d"

/-- Go `error_print`, applied to the text `err.Error()`:
the opening, the text with each double quote replaced by two single quotes,
the closing. -/
def error_print (err : String) : String :=
  errorOpen ++ ReplaceAll err (String.mk [dquote]) (String.mk [squote, squote]) ++ errorClose

/-! ## Go integers -/

/-- Two's-complement wrap of an integer into the signed 64-bit range, the
result of Go `int` arithmetic on a 64-bit platform. -/
def wrap64 (x : Int) : Int := (x + 2 ^ 63) % 2 ^ 64 - 2 ^ 63

/-- The value fits a signed integer of the given bit size. -/
def fitsSigned (bits : Nat) (x : Int) : Prop := -(2 : Int) ^ (bits - 1) ≤ x ∧ x < 2 ^ (bits - 1)

instance (bits : Nat) (x : Int) : Decidable (fitsSigned bits x) := by
  unfold fitsSigned; infer_instance

/-! ## strconv: Quote, ParseInt, Atoi -/

/-- The backslash character. -/
def backslash : Char := Char.ofNat 92

/-- A hexadecimal digit, lower case, as Go prints it. -/
def hexDigit (n : Nat) : Char :=
  if n < 10 then Char.ofNat (48 + n) else Char.ofNat (87 + n)

/-- Escape of one character by Go `strconv.Quote`. Characters outside ASCII
are taken as printable and kept. -/
def quoteChar (c : Char) : List Char :=
  if c = dquote ∨ c = backslash then [backslash, c]
  else if c.toNat = 7 then [backslash, 'a']
  else if c.toNat = 8 then [backslash, 'b']
  else if c.toNat = 12 then [backslash, 'f']
  else if c.toNat = 10 then [backslash, 'n']
  else if c.toNat = 13 then [backslash, 'r']
  else if c.toNat = 9 then [backslash, 't']
  else if c.toNat = 11 then [backslash, 'v']
  else if c.toNat < 32 ∨ c.toNat = 127 then
    [backslash, 'x', hexDigit (c.toNat / 16), hexDigit (c.toNat % 16)]
  else [c]

/-- Go `strconv.Quote`, the text that the verb q of the fmt package prints. -/
def Quote (s : String) : String :=
  String.mk (dquote :: s.data.flatMap quoteChar ++ [dquote])

/-- The two failure causes of the strconv parsers. -/
inductive NumErrKind where
  | invalid
  | range
  deriving DecidableEq, Repr

/-- Go `strconv.NumError`: the failing function, the input and the cause. -/
structure NumError where
  Func : String
  Num : String
  Err : NumErrKind
  deriving DecidableEq, Repr

/-- Go `(*NumError).Error`. -/
def NumError.Error (e : NumError) : String :=
  "strconv." ++ e.Func ++ ": parsing " ++ Quote e.Num ++ ": " ++
    (match e.Err with
     | .invalid => "invalid syntax"
     | .range => "value out of range")

/-- Digit loop of Go `strconv.ParseUint` in base 10 with 64 bits: every
character must be a decimal digit, and the accumulated value must stay below
2^64; the first violation met from the left decides the cause. -/
def parseUintLoop : List Char → Nat → Except NumErrKind Nat
  | [], n => .ok n
  | c :: cs, n =>
    if 48 ≤ c.toNat ∧ c.toNat ≤ 57 then
      let n1 := n * 10 + (c.toNat - 48)
      if n1 > 2 ^ 64 - 1 then .error .range else parseUintLoop cs n1
    else .error .invalid

/-- Go `strconv.ParseUint(s, 10, 64)` on the characters of `s`. -/
def parseUint (cs : List Char) : Except NumErrKind Nat :=
  match cs with
  | [] => .error .invalid
  | _ => parseUintLoop cs 0

/-- Go `strconv.ParseInt(s, 10, bitSize)` with `bitSize` 32 or 64: an
optional sign, decimal digits, and a range check against the bit size. -/
def parseIntCore (bitSize : Nat) (s : String) : Except NumErrKind Int :=
  match s.data with
  | [] => .error .invalid
  | c :: cs =>
    let neg := decide (c = '-')
    let digits := if c = '+' ∨ c = '-' then cs else c :: cs
    match parseUint digits with
    | .error .invalid => .error .invalid
    | .error .range => .error .range
    | .ok un =>
      let cutoff : Nat := 2 ^ (bitSize - 1)
      if !neg && decide (un ≥ cutoff) then .error .range
      else if neg && decide (un > cutoff) then .error .range
      else .ok (if neg then -(un : Int) else (un : Int))

/-- Go `strconv.ParseInt(s, 10, bitSize)` with its error value. -/
def ParseInt (s : String) (bitSize : Nat) : Except NumError Int :=
  match parseIntCore bitSize s with
  | .ok n => .ok n
  | .error k => .error { Func := "ParseInt", Num := s, Err := k }

/-- Go `strconv.Atoi` on a 64-bit platform: both of its paths compute
`ParseInt(s, 10, 0)`, and the error names `Atoi`. -/
def Atoi (s : String) : Except NumError Int :=
  match parseIntCore 64 s with
  | .ok n => .ok n
  | .error k => .error { Func := "Atoi", Num := s, Err := k }

/-! ## The data model (api.go 21-98) -/

/-- A Go float64 or float32 value, carried as the IEEE 754 bit pattern of
its float64 value (what `reflect.Value.Float` gives the JSON encoder). -/
structure GoFloat where
  bits : Nat
  deriving DecidableEq, Repr

/-- The float is neither NaN nor an infinity: its eleven exponent bits are
not all ones. -/
def GoFloat.isFinite (f : GoFloat) : Bool := (f.bits / 2 ^ 52) % 2048 != 2047

/-- A Go `time.Time` value, carried as its year and its RFC 3339 text. -/
structure GoTime where
  year : Int
  text : String
  deriving DecidableEq, Repr

/-- Go `ESIPosition`. -/
structure ESIPosition where
  X : GoFloat
  Y : GoFloat
  Z : GoFloat
  deriving DecidableEq, Repr

/-- Go `ESIItem`. -/
structure ESIItem where
  Flag : Int
  ItemTypeID : Int
  QuantityDropped : Int
  QuantityDestroyed : Int
  Singleton : Int
  deriving DecidableEq, Repr

/-- Go `ESIVictim`. A nil slice is `none`. -/
structure ESIVictim where
  AllianceID : Int
  CorporationID : Int
  CharacterID : Int
  DamageTaken : Int
  Items : Option (List ESIItem)
  Position : ESIPosition
  ShipTypeID : Int
  deriving DecidableEq, Repr

/-- Go `ESIAttacker`. -/
structure ESIAttacker where
  AllianceID : Int
  CorporationID : Int
  CharacterID : Int
  DamageDone : Int
  FinalBlow : Bool
  SecurityStatus : GoFloat
  ShipTypeID : Int
  WeaponTypeID : Int
  deriving DecidableEq, Repr

/-- Go `ESIKillmail`. -/
structure ESIKillmail where
  Attackers : Option (List ESIAttacker)
  KillmailID : Int
  KillmailTime : GoTime
  SolarSystemID : Int
  Victim : ESIVictim
  deriving DecidableEq, Repr

/-- Go `FittingAttributes`. A nil map or nil slice is `none`. -/
structure FittingAttributes where
  Ship : Option (List (String × GoFloat))
  Drones : Option (List (List (String × GoFloat)))
  deriving DecidableEq, Repr

/-- Go `KillmailData`. -/
structure KillmailData where
  KillID : Int
  KillData : ESIKillmail
  AxiomAttribute : FittingAttributes
  deriving DecidableEq, Repr

/-- Go `QueryFilter`; every field starts at zero. -/
structure QueryFilter where
  CharacterID : Int := 0
  CorporationID : Int := 0
  AllianceID : Int := 0
  SolarSystem : Int := 0
  Constellation : Int := 0
  Region : Int := 0
  Page : Int := 0
  deriving DecidableEq, Repr

/-! ## encoding/json: which values marshal

Marshalling fails on a float that is NaN or infinite and on a time whose
year is outside 0 to 9999; every other value of the data model marshals. -/

/-- Marshalling of a float by encoding/json succeeds. -/
def GoFloat.encodes (f : GoFloat) : Bool := f.isFinite

/-- Go `time.Time.MarshalJSON` succeeds: the year is within 0 to 9999. -/
def GoTime.encodes (t : GoTime) : Bool := decide (0 ≤ t.year) && decide (t.year < 10000)

/-- Marshalling of a `map[string]float64` succeeds. -/
def floatMapEncodes (m : List (String × GoFloat)) : Bool := m.all (fun p => p.2.encodes)

/-- Marshalling of `FittingAttributes` succeeds. -/
def FittingAttributes.encodes (a : FittingAttributes) : Bool :=
  floatMapEncodes (a.Ship.getD []) && (a.Drones.getD []).all floatMapEncodes

/-- Marshalling of `ESIPosition` succeeds. -/
def ESIPosition.encodes (p : ESIPosition) : Bool := p.X.encodes && p.Y.encodes && p.Z.encodes

/-- Marshalling of `ESIVictim` succeeds. -/
def ESIVictim.encodes (v : ESIVictim) : Bool := v.Position.encodes

/-- Marshalling of `ESIAttacker` succeeds. -/
def ESIAttacker.encodes (a : ESIAttacker) : Bool := a.SecurityStatus.encodes

/-- Marshalling of `ESIKillmail` succeeds. -/
def ESIKillmail.encodes (k : ESIKillmail) : Bool :=
  (k.Attackers.getD []).all ESIAttacker.encodes && k.KillmailTime.encodes && k.Victim.encodes

/-- Marshalling of `KillmailData` succeeds. -/
def KillmailData.encodes (km : KillmailData) : Bool :=
  km.KillData.encodes && km.AxiomAttribute.encodes

/-! ## BSON documents and find options (the store driver's request types) -/

/-- The BSON values the handlers build. -/
inductive BSON where
  | int (n : Int)
  | bool (b : Bool)
  | doc (fields : List (String × BSON))
  | arr (items : List BSON)

/-- Go `bson.M`: a map from field name to value, kept as an association list
with at most one entry per key. -/
abbrev M := List (String × BSON)

/-- The assignment `m[k] = v` on a Go map: any earlier entry of `k` is
replaced. -/
def M.set (m : M) (k : String) (v : BSON) : M :=
  m.filter (fun p => p.1 ≠ k) ++ [(k, v)]

/-- The lookup `m[k]` on a Go map. -/
def M.get (m : M) (k : String) : Option BSON :=
  (m.find? (fun p => p.1 = k)).map Prod.snd

/-- Go `options.FindOptions`, the three settings the handler uses. -/
structure FindOptions where
  Limit : Option Int := none
  SortSpec : Option M := none
  Skip : Option Int := none

/-- Go `options.Find()`. -/
def FindOptions.Find : FindOptions := {}

/-- Go `(*FindOptions).SetLimit`. -/
def FindOptions.SetLimit (o : FindOptions) (i : Int) : FindOptions := { o with Limit := some i }

/-- Go `(*FindOptions).SetSort`. -/
def FindOptions.SetSort (o : FindOptions) (sort : M) : FindOptions := { o with SortSpec := some sort }

/-- Go `(*FindOptions).SetSkip`. -/
def FindOptions.SetSkip (o : FindOptions) (i : Int) : FindOptions := { o with Skip := some i }

/-- A query cursor as the handler sees it: the documents for which `Next`
returns true, each with the outcome of `Decode`, and the value of `Err` once
`Next` has returned false. -/
structure Cursor where
  docs : List (Except String KillmailData)
  err : Option String

/-- The store collection as the handlers use it: `FindOne(...).Decode` and
`Find`, each returning its result or the text of its error. -/
structure Collection where
  FindOne : M → Except String KillmailData
  Find : M → FindOptions → Except String Cursor

/-! ## net/http response writer -/

/-- What is written to the response body: a text, or the JSON encoding of a
record or of a record map. -/
inductive Chunk where
  | text (s : String)
  | jsonKill (km : KillmailData)
  | jsonKills (kms : List (Int × KillmailData))
  deriving DecidableEq

/-- State of a Go `http.ResponseWriter`: the header map, the status once it
is committed, and the body written so far. -/
structure ResponseWriter where
  header : List (String × String) := []
  status : Option Nat := none
  body : List Chunk := []
  deriving DecidableEq

/-- Go `w.Header().Set(k, v)`; the header map is frozen once the status is
committed. -/
def ResponseWriter.HeaderSet (w : ResponseWriter) (k v : String) : ResponseWriter :=
  if w.status.isSome then w
  else { w with header := w.header.filter (fun p => p.1 ≠ k) ++ [(k, v)] }

/-- Go `w.WriteHeader(code)`: commits the status; a call after the status is
committed is superfluous and changes nothing. -/
def ResponseWriter.WriteHeader (w : ResponseWriter) (code : Nat) : ResponseWriter :=
  if w.status.isSome then w else { w with status := some code }

/-- Go `w.Write`: a write before any `WriteHeader` commits status 200 first. -/
def ResponseWriter.Write (w : ResponseWriter) (c : Chunk) : ResponseWriter :=
  let w1 := w.WriteHeader 200
  { w1 with body := w1.body ++ [c] }

/-- The value behind a body chunk marshals as JSON. -/
def Chunk.encodes : Chunk → Bool
  | .text _ => true
  | .jsonKill km => km.encodes
  | .jsonKills kms => kms.all (fun p => p.2.encodes)

/-- Go `json.NewEncoder(w).Encode(v)` with its error dropped, as both
handlers call it: the value is marshalled first and written only when that
succeeds; when it fails nothing reaches the writer. -/
def ResponseWriter.Encode (w : ResponseWriter) (c : Chunk) : ResponseWriter :=
  if c.encodes then w.Write c else w

/-- What net/http sends once the handler has returned: a status never
committed is sent as 200. -/
def ResponseWriter.finish (w : ResponseWriter) : ResponseWriter := w.WriteHeader 200

/-- Go `fmt.Fprint(w, s)`. -/
def ResponseWriter.Fprint (w : ResponseWriter) (s : String) : ResponseWriter :=
  w.Write (.text s)

/-- Go `http.StatusOK`. -/
def StatusOK : Nat := 200

/-- Go `http.StatusBadRequest`. -/
def StatusBadRequest : Nat := 400

/-- Go `http.StatusInternalServerError`. -/
def StatusInternalServerError : Nat := 500

/-! ## gorilla/schema decoder -/

/-- Go `url.Values`: parameter name to the values given for it. -/
abbrev UrlValues := List (String × List String)

/-- Go `schema.MultiError.Error` on the error texts collected by `Decode`:
one of them, and the count of the others. -/
def multiErrorText : List String → String
  | [] => "(0 errors)"
  | [e] => e
  | [e, _] => e ++ " (and 1 other error)"
  | e :: rest => e ++ " (and " ++ toString rest.length ++ " other errors)"

/-- Decoding of one parameter by gorilla/schema into `QueryFilter`: the
name selects the field by its schema tag, an unknown name is an error, an
empty value leaves the field, any other value is parsed by
`strconv.ParseInt` with the field's bit size. The value used is the last one
given. -/
def decodeParam (q : QueryFilter) (path : String) (values : List String) :
    Except String QueryFilter :=
  let val := values.getLast?.getD ""
  let conv (bits : Nat) (set : Int → QueryFilter) : Except String QueryFilter :=
    if val = "" then .ok q
    else match ParseInt val bits with
      | .ok n => .ok (set n)
      | .error _ => .error ("schema: error converting value for " ++ Quote path)
  if path = "character_id" then conv 32 (fun n => { q with CharacterID := n })
  else if path = "corporation_id" then conv 32 (fun n => { q with CorporationID := n })
  else if path = "alliance_id" then conv 32 (fun n => { q with AllianceID := n })
  else if path = "solar_system" then conv 32 (fun n => { q with SolarSystem := n })
  else if path = "constellation" then conv 32 (fun n => { q with Constellation := n })
  else if path = "region" then conv 32 (fun n => { q with Region := n })
  else if path = "page" then conv 64 (fun n => { q with Page := n })
  else .error ("schema: invalid path " ++ Quote path)

/-- Loop of `Decode` over the parameters: fields are set as they decode and
the error texts are collected. -/
def decodeLoop : UrlValues → QueryFilter → List String → QueryFilter × List String
  | [], q, errs => (q, errs)
  | (path, values) :: rest, q, errs =>
    match decodeParam q path values with
    | .ok q1 => decodeLoop rest q1 errs
    | .error e => decodeLoop rest q (errs ++ [e])

/-- Go `schema.NewDecoder().Decode(&query, values)` for a fresh
`QueryFilter`: the decoded filter, or the text of the collected errors. -/
def schemaDecode (values : UrlValues) : Except String QueryFilter :=
  match decodeLoop values {} [] with
  | (q, []) => .ok q
  | (_, e :: es) => .error (multiErrorText (e :: es))

/-! ## HandleSingleKillmailEndpoint (api.go 137-165) -/

/-- Outcome of one run of `HandleSingleKillmailEndpoint`: the response, and
the filters of the `FindOne` calls issued, in order. -/
structure SingleRun where
  w : ResponseWriter
  lookups : List M

/-- Go `HandleSingleKillmailEndpoint`, given the collection and the path
parameter `id`. -/
def HandleSingleKillmailEndpoint (col : Collection) (ids : String) : SingleRun :=
  let w := ResponseWriter.HeaderSet {} "Content-Type" "application/json"
  match Atoi ids with
  | .error err =>
    { w := (w.WriteHeader StatusBadRequest).Fprint (error_print err.Error), lookups := [] }
  | .ok id =>
    let filter : M := [("_id", .int id)]
    match col.FindOne filter with
    | .error err =>
      { w := (w.WriteHeader StatusInternalServerError).Fprint (error_print err),
        lookups := [filter] }
    | .ok km =>
      { w := w.Encode (.jsonKill km), lookups := [filter] }

/-! ## HandleBulkKillmailEndpoint (api.go 167-260) -/

/-- Pagination logic (api.go 182-187): `skip` stays zero unless the page is
positive, and is then `int64(query.Page * 100)`, the product taken in Go
`int`. -/
def bulkSkip (query : QueryFilter) : Int :=
  if query.Page > 0 then wrap64 (query.Page * 100) else 0

/-- The find options of the bulk query (api.go 183, 189). -/
def bulkFindOptions (query : QueryFilter) : FindOptions :=
  ((FindOptions.Find.SetLimit 100).SetSort [("_id", .int (-1))]).SetSkip (bulkSkip query)

/-- The filter of the bulk query (api.go 193-219): the assignments to
`filter` in source order. -/
def bulkFilter (query : QueryFilter) : M :=
  let filter : M := []
  let filter := filter.set "axiom" (.doc [("$exists", .bool true)])
  let filter :=
    if query.CharacterID > 0 then
      filter.set "$or" (.arr [
        .doc [("killmail.attackers.character_id", .int query.CharacterID)],
        .doc [("killmail.victim.character_id", .int query.CharacterID)]])
    else filter
  let filter :=
    if query.CorporationID > 0 then
      filter.set "$or" (.arr [
        .doc [("killmail.attackers.corporation_id", .int query.CorporationID)],
        .doc [("killmail.victim.corporation_id", .int query.CorporationID)]])
    else filter
  let filter :=
    if query.AllianceID > 0 then
      filter.set "$or" (.arr [
        .doc [("killmail.attackers.alliance_id", .int query.AllianceID)],
        .doc [("killmail.victim.alliance_id", .int query.AllianceID)]])
    else filter
  filter

/-- The assignment `kms[id] = km` on the Go map of records. -/
def kmsSet (kms : List (Int × KillmailData)) (id : Int) (km : KillmailData) :
    List (Int × KillmailData) :=
  kms.filter (fun p => p.1 ≠ id) ++ [(id, km)]

/-- The loop over the cursor (api.go 237-247): every document is decoded and
stored under its id; the first decode error ends the loop with that error. -/
def bulkLoop : List (Except String KillmailData) → List (Int × KillmailData) →
    Except String (List (Int × KillmailData))
  | [], kms => .ok kms
  | .error err :: _, _ => .error err
  | .ok km :: rest, kms => bulkLoop rest (kmsSet kms km.KillID km)

/-- Outcome of one run of `HandleBulkKillmailEndpoint`: the response, the
`Find` calls issued, how many cursors `Find` returned and how many times
`Close` was called on the cursor. -/
structure BulkRun where
  w : ResponseWriter
  finds : List (M × FindOptions)
  cursors : Nat
  closes : Nat

/-- Go `HandleBulkKillmailEndpoint`, given the package-level decoder, the
collection and the URL query values. -/
def HandleBulkKillmailEndpoint (decode : UrlValues → Except String QueryFilter)
    (col : Collection) (values : UrlValues) : BulkRun :=
  let w := ResponseWriter.HeaderSet {} "Content-Type" "application/json"
  match decode values with
  | .error err =>
    { w := (w.Fprint (error_print err)).WriteHeader StatusBadRequest,
      finds := [], cursors := 0, closes := 0 }
  | .ok query =>
    let opt := bulkFindOptions query
    let filter := bulkFilter query
    match col.Find filter opt with
    | .error err =>
      { w := (w.Fprint (error_print err)).WriteHeader StatusInternalServerError,
        finds := [(filter, opt)], cursors := 0, closes := 0 }
    | .ok cursor =>
      match bulkLoop cursor.docs [] with
      | .error err =>
        { w := (w.Fprint (error_print err)).WriteHeader StatusInternalServerError,
          finds := [(filter, opt)], cursors := 1, closes := 0 }
      | .ok kms =>
        match cursor.err with
        | some err =>
          { w := (w.Fprint (error_print err)).WriteHeader StatusInternalServerError,
            finds := [(filter, opt)], cursors := 1, closes := 0 }
        | none =>
          { w := (w.WriteHeader StatusOK).Encode (.jsonKills kms),
            finds := [(filter, opt)], cursors := 1, closes := 1 }

/-! ## encoding/json: which fields a record's encoding has -/

/-- JSON values. -/
inductive JSON where
  | null
  | bool (b : Bool)
  | int (n : Int)
  | float (f : GoFloat)
  | str (s : String)
  | arr (items : List JSON)
  | obj (fields : List (String × JSON))

/-- The Go kinds that `isEmptyValue` of encoding/json distinguishes, each
with what the test reads from the value. -/
inductive Kind where
  | array (len : Nat)
  | map (len : Nat)
  | slice (len : Nat)
  | string (len : Nat)
  | bool (b : Bool)
  | int (n : Int)
  | float (isZero : Bool)
  | interface (isNil : Bool)
  | pointer (isNil : Bool)
  | struct

/-- Go `isEmptyValue` of encoding/json: what `omitempty` omits. A struct
value is never empty. -/
def isEmptyValue : Kind → Bool
  | .array len => len == 0
  | .map len => len == 0
  | .slice len => len == 0
  | .string len => len == 0
  | .bool b => !b
  | .int n => n == 0
  | .float isZero => isZero
  | .interface isNil => isNil
  | .pointer isNil => isNil
  | .struct => false

/-- One struct field in the encoding of a struct: left out when it is
tagged `omitempty` and its value is empty. -/
def jsonField (name : String) (omitempty : Bool) (k : Kind) (v : JSON) : List (String × JSON) :=
  if omitempty && isEmptyValue k then [] else [(name, v)]

/-- Encoding of a `map[string]float64`; a nil map is `null`. -/
def encodeFloatMap : Option (List (String × GoFloat)) → JSON
  | none => .null
  | some m => .obj (m.map (fun p => (p.1, .float p.2)))

/-- Encoding of a slice; a nil slice is `null`. -/
def encodeSlice {α : Type} (f : α → JSON) : Option (List α) → JSON
  | none => .null
  | some xs => .arr (xs.map f)

/-- Length of a Go slice or map, zero when nil. -/
def goLen {α : Type} (xs : Option (List α)) : Nat := (xs.getD []).length

/-- Encoding of `FittingAttributes` by its json tags. -/
def FittingAttributes.toJSON (a : FittingAttributes) : JSON :=
  .obj (jsonField "ship" true (.map (goLen a.Ship)) (encodeFloatMap a.Ship)
    ++ jsonField "drones" true (.slice (goLen a.Drones))
        (encodeSlice (fun m => encodeFloatMap (some m)) a.Drones))

/-- Encoding of `ESIPosition` by its json tags. -/
def ESIPosition.toJSON (p : ESIPosition) : JSON :=
  .obj [("x", .float p.X), ("y", .float p.Y), ("z", .float p.Z)]

/-- Encoding of `ESIItem` by its json tags. -/
def ESIItem.toJSON (i : ESIItem) : JSON :=
  .obj (jsonField "flag" false (.int i.Flag) (.int i.Flag)
    ++ jsonField "item_type_id" false (.int i.ItemTypeID) (.int i.ItemTypeID)
    ++ jsonField "quantity_dropped" true (.int i.QuantityDropped) (.int i.QuantityDropped)
    ++ jsonField "quantity_destroyed" true (.int i.QuantityDestroyed) (.int i.QuantityDestroyed)
    ++ jsonField "singleton" false (.int i.Singleton) (.int i.Singleton))

/-- Encoding of `ESIVictim` by its json tags. -/
def ESIVictim.toJSON (v : ESIVictim) : JSON :=
  .obj (jsonField "alliance_id" true (.int v.AllianceID) (.int v.AllianceID)
    ++ jsonField "corporation_id" false (.int v.CorporationID) (.int v.CorporationID)
    ++ jsonField "character_id" false (.int v.CharacterID) (.int v.CharacterID)
    ++ jsonField "damage_taken" false (.int v.DamageTaken) (.int v.DamageTaken)
    ++ jsonField "items" false (.slice (goLen v.Items)) (encodeSlice ESIItem.toJSON v.Items)
    ++ jsonField "position" false .struct v.Position.toJSON
    ++ jsonField "ship_type_id" false (.int v.ShipTypeID) (.int v.ShipTypeID))

/-- Encoding of `ESIAttacker` by its json tags. -/
def ESIAttacker.toJSON (a : ESIAttacker) : JSON :=
  .obj (jsonField "alliance_id" true (.int a.AllianceID) (.int a.AllianceID)
    ++ jsonField "corporation_id" false (.int a.CorporationID) (.int a.CorporationID)
    ++ jsonField "character_id" false (.int a.CharacterID) (.int a.CharacterID)
    ++ jsonField "damage_done" false (.int a.DamageDone) (.int a.DamageDone)
    ++ jsonField "final_blow" false (.bool a.FinalBlow) (.bool a.FinalBlow)
    ++ jsonField "security_status" false (.float false) (.float a.SecurityStatus)
    ++ jsonField "ship_type_id" false (.int a.ShipTypeID) (.int a.ShipTypeID)
    ++ jsonField "weapon_type_id" false (.int a.WeaponTypeID) (.int a.WeaponTypeID))

/-- Encoding of `ESIKillmail` by its json tags. -/
def ESIKillmail.toJSON (k : ESIKillmail) : JSON :=
  .obj (jsonField "attackers" false (.slice (goLen k.Attackers))
        (encodeSlice ESIAttacker.toJSON k.Attackers)
    ++ jsonField "killmail_id" false (.int k.KillmailID) (.int k.KillmailID)
    ++ jsonField "killmail_time" false .struct (.str k.KillmailTime.text)
    ++ jsonField "solar_system_id" false (.int k.SolarSystemID) (.int k.SolarSystemID)
    ++ jsonField "victim" false .struct k.Victim.toJSON)

/-- Encoding of `KillmailData` by its json tags (api.go 45-49): `_id`,
`killmail`, and `axiom` tagged `omitempty` on a field of struct type. -/
def KillmailData.toJSON (km : KillmailData) : JSON :=
  .obj (jsonField "_id" false (.int km.KillID) (.int km.KillID)
    ++ jsonField "killmail" false .struct km.KillData.toJSON
    ++ jsonField "axiom" true .struct km.AxiomAttribute.toJSON)

/-- The field names of a JSON object, in order; none for other values. -/
def JSON.keys : JSON → List String
  | .obj fields => fields.map Prod.fst
  | _ => []

/-- The value of a field of a JSON object. -/
def JSON.field (j : JSON) (k : String) : Option JSON :=
  match j with
  | .obj fields => (fields.find? (fun p => p.1 = k)).map Prod.snd
  | _ => none

/-- The zero value of `FittingAttributes`: no Ship map and no Drones list. -/
def FittingAttributes.zero : FittingAttributes := { Ship := none, Drones := none }

/-! ## A store model: the collection as a list of documents

The handlers only see a `Collection`. The claims about what a query returns
are stated over this model of one: a list of stored documents, a query
returning the documents that satisfy every entry of the filter, sorted,
skipped and limited as the options say. -/

/-- A stored document: `_id`, `killmail`, and the `axiom` field when the
document has one. -/
structure StoredDoc where
  KillID : Int
  KillData : ESIKillmail
  AxiomAttribute : Option FittingAttributes
  deriving DecidableEq, Repr

/-- Decoding of a stored document into `KillmailData`: an absent `axiom`
field leaves the zero value. -/
def StoredDoc.decode (d : StoredDoc) : KillmailData :=
  { KillID := d.KillID, KillData := d.KillData,
    AxiomAttribute := d.AxiomAttribute.getD FittingAttributes.zero }

/-- What a document holds at a field path: nothing, integer values (several
when the path crosses the attackers array), or a value of another type. -/
inductive FieldVal where
  | absent
  | ints (vs : List Int)
  | other
  deriving DecidableEq, Repr

/-- An identifier stored with `omitempty`: not stored when zero. -/
def omitZero (n : Int) : List Int := if n = 0 then [] else [n]

/-- The value of a document at a field path, for the paths of the data
model. -/
def StoredDoc.lookup (d : StoredDoc) (path : String) : FieldVal :=
  let attackers := d.KillData.Attackers.getD []
  if path = "_id" then .ints [d.KillID]
  else if path = "axiom" then (if d.AxiomAttribute.isSome then .other else .absent)
  else if path = "killmail" then .other
  else if path = "killmail.attackers.character_id" then
    .ints (attackers.map (fun a => a.CharacterID))
  else if path = "killmail.attackers.corporation_id" then
    .ints (attackers.map (fun a => a.CorporationID))
  else if path = "killmail.attackers.alliance_id" then
    .ints (attackers.flatMap (fun a => omitZero a.AllianceID))
  else if path = "killmail.victim.character_id" then .ints [d.KillData.Victim.CharacterID]
  else if path = "killmail.victim.corporation_id" then .ints [d.KillData.Victim.CorporationID]
  else if path = "killmail.victim.alliance_id" then .ints (omitZero d.KillData.Victim.AllianceID)
  else .absent

/-- A condition on one field: an integer matches when one of the field's
values equals it, `$exists: b` matches when the field's presence is `b`. -/
def matchCond (fv : FieldVal) (cond : BSON) : Bool :=
  match cond with
  | .int n =>
    (match fv with
     | .ints vs => vs.contains n
     | _ => false)
  | .doc [(op, .bool b)] =>
    if op = "$exists" then (decide (fv ≠ .absent) == b) else false
  | _ => false

/-- All field conditions of one document of an `$or` list hold. -/
def matchFields (d : StoredDoc) (fields : List (String × BSON)) : Bool :=
  fields.all (fun p => matchCond (d.lookup p.1) p.2)

/-- One alternative of an `$or` list holds. -/
def matchAlternative (d : StoredDoc) (alt : BSON) : Bool :=
  match alt with
  | .doc fields => matchFields d fields
  | _ => false

/-- One entry of the filter holds: `$or` needs one of its alternatives, any
other key is a condition on that field. -/
def matchEntry (d : StoredDoc) (entry : String × BSON) : Bool :=
  if entry.1 = "$or" then
    (match entry.2 with
     | .arr alts => alts.any (matchAlternative d)
     | _ => false)
  else matchCond (d.lookup entry.1) entry.2

/-- A document satisfies a filter when every entry holds. -/
def matchesFilter (filter : M) (d : StoredDoc) : Bool :=
  filter.all (matchEntry d)

/-- Descending order of documents by `_id`. -/
def idDesc (a b : StoredDoc) : Prop := a.KillID ≥ b.KillID

instance : DecidableRel idDesc := fun a b => inferInstanceAs (Decidable (a.KillID ≥ b.KillID))

/-- Ascending order of documents by `_id`. -/
def idAsc (a b : StoredDoc) : Prop := a.KillID ≤ b.KillID

instance : DecidableRel idAsc := fun a b => inferInstanceAs (Decidable (a.KillID ≤ b.KillID))

/-- The sort of a query: by `_id`, descending for a negative direction and
ascending for a positive one; any other sort document leaves the order. -/
def sortDocs (sort : Option M) (docs : List StoredDoc) : List StoredDoc :=
  match sort with
  | some [(key, .int dir)] =>
    if key = "_id" then
      (if dir < 0 then docs.insertionSort idDesc
       else if dir > 0 then docs.insertionSort idAsc else docs)
    else docs
  | _ => docs

/-- The limit of a query: zero or unset is no limit, otherwise the absolute
value. -/
def limitDocs (limit : Option Int) (docs : List StoredDoc) : List StoredDoc :=
  match limit with
  | none => docs
  | some n => if n = 0 then docs else docs.take n.natAbs

/-- The documents a query returns: a negative skip is rejected by the
store; otherwise the matching documents are sorted, skipped and limited. -/
def selectDocs (docs : List StoredDoc) (filter : M) (opt : FindOptions) :
    Except String (List StoredDoc) :=
  let skip := opt.Skip.getD 0
  if skip < 0 then .error "skip value must be non-negative"
  else .ok (limitDocs opt.Limit ((sortDocs opt.SortSpec (docs.filter (matchesFilter filter))).drop
    skip.toNat))

/-- The text of the driver's `ErrNoDocuments`. -/
def ErrNoDocuments : String := "mongo: no documents in result"

/-- The collection backed by a list of documents. -/
def listCollection (docs : List StoredDoc) : Collection where
  FindOne := fun filter =>
    match docs.find? (matchesFilter filter) with
    | some d => .ok d.decode
    | none => .error ErrNoDocuments
  Find := fun filter opt =>
    match selectDocs docs filter opt with
    | .error e => .error e
    | .ok ds => .ok { docs := ds.map (fun d => .ok d.decode), err := none }

/-! ## Well-formedness of the error body as JSON

A recogniser for the shape the error body is claimed to have: a JSON object
with the single field `message` whose value is a JSON string. -/

/-- JSON whitespace: space, tab, line feed, carriage return. -/
def isJsonWs (c : Char) : Bool :=
  c.toNat = 32 || c.toNat = 9 || c.toNat = 10 || c.toNat = 13

/-- A hexadecimal digit of a `\u` escape. -/
def isHex (c : Char) : Bool :=
  (48 ≤ c.toNat && c.toNat ≤ 57) || (65 ≤ c.toNat && c.toNat ≤ 70) ||
    (97 ≤ c.toNat && c.toNat ≤ 102)

/-- The characters that may follow a backslash in a JSON string, `u` apart:
the double quote, the backslash, the slash, and b f n r t. -/
def isSimpleEscape (c : Char) : Bool :=
  c = dquote || c = backslash || c = '/' || c = 'b' || c = 'f' || c = 'n' || c = 'r' || c = 't'

/-- Where the reader of a JSON string stands: between characters, right
after a backslash, or inside a `\u` escape with that many hexadecimal digits
still due. -/
inductive ScanState where
  | plain
  | escape
  | hex (due : Nat)
  deriving DecidableEq, Repr

/-- Puts a character in front of the characters read. -/
def consRead (c : Char) (r : Option (List Char × List Char)) : Option (List Char × List Char) :=
  r.map (fun p => (c :: p.1, p.2))

/-- Reads a JSON string from a state: the raw characters up to the closing
quote, and what follows it. Fails on a control character, on a backslash that
starts no escape, and when the closing quote is missing. -/
def scanFrom : ScanState → List Char → Option (List Char × List Char)
  | _, [] => none
  | .plain, c :: cs =>
    if c = dquote then some ([], cs)
    else if c = backslash then consRead c (scanFrom .escape cs)
    else if c.toNat < 32 then none
    else consRead c (scanFrom .plain cs)
  | .escape, c :: cs =>
    if isSimpleEscape c then consRead c (scanFrom .plain cs)
    else if c = 'u' then consRead c (scanFrom (.hex 4) cs)
    else none
  | .hex due, c :: cs =>
    if isHex c then consRead c (scanFrom (if due ≤ 1 then .plain else .hex (due - 1)) cs)
    else none

/-- Reads a JSON string after its opening quote. -/
def scanString (cs : List Char) : Option (List Char × List Char) := scanFrom .plain cs

/-- Drops leading JSON whitespace. -/
def skipWs (cs : List Char) : List Char := cs.dropWhile isJsonWs

/-- Reads one given character. -/
def expectChar (c : Char) : List Char → Option (List Char)
  | [] => none
  | d :: rest => if d = c then some rest else none

/-- Reads a JSON object with the single field `message` and a string
value, and nothing after it; gives the raw characters of the value. -/
def parseMessageObject (cs : List Char) : Option (List Char) :=
  (expectChar (Char.ofNat 123) (skipWs cs)).bind fun r1 =>
  (expectChar dquote (skipWs r1)).bind fun r2 =>
  (scanString r2).bind fun key =>
  if key.1 = "message".data then
    (expectChar ':' (skipWs key.2)).bind fun r3 =>
    (expectChar dquote (skipWs r3)).bind fun r4 =>
    (scanString r4).bind fun value =>
    (expectChar (Char.ofNat 125) (skipWs value.2)).bind fun r5 =>
    if skipWs r5 = [] then some value.1 else none
  else none

/-- The text is a well-formed JSON object with exactly the field `message`,
whose value is a JSON string. -/
def isMessageObject (s : String) : Bool := (parseMessageObject s.data).isSome

/-! ## Reading a run's response -/

/-- The records of a body chunk: the entries of an encoded record map. -/
def Chunk.records : Chunk → List (Int × KillmailData)
  | .jsonKills kms => kms
  | _ => []

/-- The records a bulk run returns in its response body. -/
def BulkRun.records (r : BulkRun) : List (Int × KillmailData) :=
  r.w.body.flatMap Chunk.records

/-- The record map the loop builds from documents that all decode. -/
def collectDocs (ds : List StoredDoc) (kms : List (Int × KillmailData)) :
    List (Int × KillmailData) :=
  ds.foldl (fun acc d => kmsSet acc d.KillID d.decode) kms

/-! ## A sample store: ids 1 to 250, all with derived attributes -/

/-- A killmail with one attacker and empty remaining data. -/
def sampleKillmail (attackerCharacter : Int) : ESIKillmail :=
  { Attackers := some [{ AllianceID := 0, CorporationID := 7, CharacterID := attackerCharacter,
                         DamageDone := 0, FinalBlow := true, SecurityStatus := ⟨0⟩,
                         ShipTypeID := 0, WeaponTypeID := 0 }],
    KillmailID := 0, KillmailTime := { year := 2020, text := "2020-01-01T00:00:00Z" }, SolarSystemID := 0,
    Victim := { AllianceID := 0, CorporationID := 8, CharacterID := 9, DamageTaken := 0,
                Items := none, Position := ⟨⟨0⟩, ⟨0⟩, ⟨0⟩⟩, ShipTypeID := 0 } }

/-- The stored document with the given id, with derived attributes; the
attacker of record 5 is character 42. -/
def sampleDoc (id : Int) : StoredDoc :=
  { KillID := id, KillData := sampleKillmail (if id = 5 then 42 else 1),
    AxiomAttribute := some FittingAttributes.zero }

/-- The store of the scenario: records with ids 1 to 250. -/
def docs250 : List StoredDoc := (List.range 250).map (fun i => sampleDoc ((i : Int) + 1))

/-- The query of the scenario: page 1 and no other filter. -/
def pageOne : QueryFilter := { Page := 1 }

/-- The ids of the documents a query returns, none when it fails. -/
def selectIds (docs : List StoredDoc) (filter : M) (opt : FindOptions) : Option (List Int) :=
  match selectDocs docs filter opt with
  | .ok ds => some (ds.map (fun d => d.KillID))
  | .error _ => none

/-! ## Sample collections and records for the failure paths -/

/-- A record whose derived attributes are absent: the zero
`FittingAttributes`. -/
def bareRecord : KillmailData :=
  { KillID := 1, KillData := sampleKillmail 1, AxiomAttribute := FittingAttributes.zero }

/-- A stored document without the `axiom` field. -/
def bareDoc : StoredDoc :=
  { KillID := 1, KillData := sampleKillmail 1, AxiomAttribute := none }

/-- The bit pattern of a float64 NaN. -/
def nanFloat : GoFloat := ⟨0x7FF8000000000000⟩

/-- A stored document with id 7 and derived attributes whose victim
position holds a NaN coordinate. -/
def nanDoc : StoredDoc :=
  { KillID := 7,
    KillData := { sampleKillmail 1 with
      Victim := { (sampleKillmail 1).Victim with Position := ⟨nanFloat, ⟨0⟩, ⟨0⟩⟩ } },
    AxiomAttribute := some FittingAttributes.zero }

/-- A collection whose `Find` fails. -/
def failingFind : Collection where
  FindOne := fun _ => .error "connection refused"
  Find := fun _ _ => .error "connection refused"

/-- A collection whose cursor yields one good document and then one that
does not decode. -/
def undecodable : Collection where
  FindOne := fun _ => .error "cannot decode"
  Find := fun _ _ => .ok { docs := [.ok bareRecord, .error "cannot decode"], err := none }

/-- A collection whose cursor yields one document and then reports an
error. -/
def brokenCursor : Collection where
  FindOne := fun _ => .error "cursor failed"
  Find := fun _ _ => .ok { docs := [.ok bareRecord], err := some "cursor failed" }

/-- The smallest page whose product with 100 leaves the signed 64-bit
range. -/
def overflowPage : Int := 92233720368547759

/-- The replacement that `error_print` is claimed to perform, character by
character: a double quote becomes two single quotes, anything else stays. -/
def quoteSubst (c : Char) : List Char :=
  if c = dquote then [squote, squote] else [c]

theorem replaceScan_dquote (cs : List Char) :
    replaceScan [dquote] [squote, squote] 0 cs = cs.flatMap quoteSubst := by
  induction cs with
  | nil => rfl
  | cons c cs ih =>
    by_cases h : c = dquote
    · subst h
      simp [replaceScan, quoteSubst, ih, List.isPrefixOf]
    · have h' : (dquote == c) = false := by
        simp only [beq_eq_false_iff_ne, ne_eq]
        exact fun e => h e.symm
      simp [replaceScan, quoteSubst, ih, List.isPrefixOf, h, h']

theorem dquote_not_mem_flatMap (cs : List Char) :
    dquote ∉ cs.flatMap quoteSubst := by
  intro hmem
  rw [List.mem_flatMap] at hmem
  obtain ⟨c, _, hc⟩ := hmem
  unfold quoteSubst at hc
  split at hc
  · simp [dquote, squote] at hc
  · rename_i hne
    simp at hc
    exact hne hc.symm

theorem error_print_ne_empty (e : String) : error_print e ≠ "" := by
  intro h
  have hd := congrArg String.data h
  simp only [error_print, String.data_append, List.append_assoc] at hd
  have hopen : errorOpen.data = [] := (List.append_eq_nil.mp hd).1
  revert hopen
  decide

/-- C8: for every error text `e`, `error_print e` is the fixed opening,
then `e` with every double quote replaced by two single quotes and every
other character kept in order, then the fixed closing; the message portion
holds no double quote, and the result is never empty. -/
theorem error_print_shape (e : String) :
    error_print e = errorOpen ++ String.mk (e.data.flatMap quoteSubst) ++ errorClose
    ∧ dquote ∉ e.data.flatMap quoteSubst
    ∧ error_print e ≠ ""
    ∧ errorOpen.data = [Char.ofNat 123, ' ', dquote, 'm', 'e', 's', 's', 'a', 'g', 'e', dquote,
        ' ', ':', ' ', dquote]
    ∧ errorClose.data = [dquote, ' ', Char.ofNat 125] := by
  have hrep : ReplaceAll e (String.mk [dquote]) (String.mk [squote, squote])
      = String.mk (e.data.flatMap quoteSubst) := by
    simp [ReplaceAll, replaceScan_dquote]
  refine ⟨?_, dquote_not_mem_flatMap _, error_print_ne_empty e, by decide, by decide⟩
  simp [error_print, hrep]


/-- C1: the `$or` entry of the bulk filter is decided by the last set
identifier filter alone, in the order character, corporation, alliance: the
alliance pair when `AllianceID > 0`, else the corporation pair when
`CorporationID > 0`, else the character pair when `CharacterID > 0`, else no
`$or` entry; the filter does not depend on SolarSystem, Constellation, Region
or Page; and it is the filter the handler passes to `Find` for the decoded
query `q`. -/
theorem bulkFilter_or_last_set (q : QueryFilter) :
    M.get (bulkFilter q) "$or" =
      (if q.AllianceID > 0 then
        some (.arr [.doc [("killmail.attackers.alliance_id", .int q.AllianceID)],
                    .doc [("killmail.victim.alliance_id", .int q.AllianceID)]])
      else if q.CorporationID > 0 then
        some (.arr [.doc [("killmail.attackers.corporation_id", .int q.CorporationID)],
                    .doc [("killmail.victim.corporation_id", .int q.CorporationID)]])
      else if q.CharacterID > 0 then
        some (.arr [.doc [("killmail.attackers.character_id", .int q.CharacterID)],
                    .doc [("killmail.victim.character_id", .int q.CharacterID)]])
      else none)
    ∧ (∀ solarSystem constellation region page : Int,
        bulkFilter { q with SolarSystem := solarSystem, Constellation := constellation,
                            Region := region, Page := page } = bulkFilter q)
    ∧ (∀ (col : Collection) (values : UrlValues),
        ((HandleBulkKillmailEndpoint (fun _ => .ok q) col values).finds.map Prod.fst)
          = [bulkFilter q]) := by
  refine ⟨?_, ?_, ?_⟩
  · unfold bulkFilter
    by_cases ha : q.AllianceID > 0 <;> by_cases hc : q.CorporationID > 0 <;>
      by_cases hh : q.CharacterID > 0 <;>
      simp [ha, hc, hh, M.set, M.get, List.filter, List.find?]
  · intro _ _ _ _
    rfl
  · intro col values
    unfold HandleBulkKillmailEndpoint
    simp only
    split <;> (try split) <;> (try split) <;> rfl

/-! ### The bulk loop over the list-backed collection -/

theorem bulkLoop_decoded (ds : List StoredDoc) (kms : List (Int × KillmailData)) :
    bulkLoop (ds.map (fun d => Except.ok d.decode)) kms = .ok (collectDocs ds kms) := by
  induction ds generalizing kms with
  | nil => rfl
  | cons d ds ih =>
    simp only [List.map_cons, bulkLoop, collectDocs, List.foldl_cons]
    exact ih _

theorem mem_kmsSet {kms : List (Int × KillmailData)} {id : Int} {km : KillmailData}
    {e : Int × KillmailData} (h : e ∈ kmsSet kms id km) : e ∈ kms ∨ e = (id, km) := by
  unfold kmsSet at h
  rw [List.mem_append] at h
  rcases h with h | h
  · exact Or.inl (List.mem_filter.mp h).1
  · exact Or.inr (by simpa using h)

theorem mem_collectDocs (ds : List StoredDoc) (kms : List (Int × KillmailData))
    (e : Int × KillmailData) (h : e ∈ collectDocs ds kms) :
    e ∈ kms ∨ ∃ d ∈ ds, e = (d.KillID, d.decode) := by
  induction ds generalizing kms with
  | nil => exact Or.inl h
  | cons d ds ih =>
    simp only [collectDocs, List.foldl_cons] at h
    rcases ih _ h with h1 | ⟨d1, hd1, he⟩
    · rcases mem_kmsSet h1 with h2 | h2
      · exact Or.inl h2
      · exact Or.inr ⟨d, List.mem_cons_self _ _, h2⟩
    · exact Or.inr ⟨d1, List.mem_cons_of_mem _ hd1, he⟩

theorem keys_kmsSet (kms : List (Int × KillmailData)) (id : Int) (km : KillmailData) (k : Int) :
    k ∈ (kmsSet kms id km).map Prod.fst ↔ k ∈ kms.map Prod.fst ∨ k = id := by
  unfold kmsSet
  simp only [List.map_append, List.mem_append, List.mem_map, List.mem_filter, List.map_cons,
    List.map_nil, List.mem_singleton]
  constructor
  · rintro (⟨e, ⟨he, _⟩, rfl⟩ | h)
    · exact Or.inl ⟨e, he, rfl⟩
    · exact Or.inr h
  · rintro (⟨e, he, rfl⟩ | h)
    · by_cases hk : e.1 = id
      · exact Or.inr hk
      · exact Or.inl ⟨e, ⟨he, by simpa using hk⟩, rfl⟩
    · exact Or.inr h

theorem keys_collectDocs (ds : List StoredDoc) (kms : List (Int × KillmailData)) (k : Int) :
    k ∈ (collectDocs ds kms).map Prod.fst ↔
      k ∈ kms.map Prod.fst ∨ k ∈ ds.map (fun d => d.KillID) := by
  induction ds generalizing kms with
  | nil => simp [collectDocs]
  | cons d ds ih =>
    simp only [collectDocs, List.foldl_cons]
    have := ih (kmsSet kms d.KillID d.decode)
    simp only [collectDocs] at this
    rw [this, keys_kmsSet]
    simp only [List.map_cons, List.mem_cons]
    tauto

/-- The run of the bulk handler over the list-backed collection, for a
decoded query whose store query succeeds. -/
theorem bulk_run_listCollection (q : QueryFilter) (docs ds : List StoredDoc)
    (values : UrlValues)
    (h : selectDocs docs (bulkFilter q) (bulkFindOptions q) = .ok ds) :
    (HandleBulkKillmailEndpoint (fun _ => .ok q) (listCollection docs) values).w =
      { header := [("Content-Type", "application/json")], status := some 200,
        body := if (collectDocs ds []).all (fun p => p.2.encodes) then
                  [.jsonKills (collectDocs ds [])] else [] } := by
  by_cases henc : (collectDocs ds []).all (fun p => p.2.encodes) = true
  · simp [HandleBulkKillmailEndpoint, listCollection, h, bulkLoop_decoded,
      ResponseWriter.Encode, Chunk.encodes, henc,
      ResponseWriter.Write, ResponseWriter.WriteHeader, ResponseWriter.HeaderSet, StatusOK]
  · simp [HandleBulkKillmailEndpoint, listCollection, h, bulkLoop_decoded,
      ResponseWriter.Encode, Chunk.encodes, henc,
      ResponseWriter.WriteHeader, ResponseWriter.HeaderSet, StatusOK]

/-- The run of the bulk handler over the list-backed collection, for a
decoded query whose store query fails. -/
theorem bulk_run_listCollection_error (q : QueryFilter) (docs : List StoredDoc)
    (values : UrlValues) (e : String)
    (h : selectDocs docs (bulkFilter q) (bulkFindOptions q) = .error e) :
    (HandleBulkKillmailEndpoint (fun _ => .ok q) (listCollection docs) values).w.body =
      [.text (error_print e)] := by
  simp [HandleBulkKillmailEndpoint, listCollection, h,
    ResponseWriter.Write, ResponseWriter.WriteHeader, ResponseWriter.HeaderSet,
    ResponseWriter.Fprint]

/-! ### C2: the eligibility condition -/

theorem bulkFilter_has_exists (q : QueryFilter) :
    ("axiom", BSON.doc [("$exists", .bool true)]) ∈ bulkFilter q := by
  unfold bulkFilter
  by_cases ha : q.AllianceID > 0 <;> by_cases hc : q.CorporationID > 0 <;>
    by_cases hh : q.CharacterID > 0 <;>
    simp [ha, hc, hh, M.set, List.filter]

theorem matchesFilter_derived (q : QueryFilter) (d : StoredDoc)
    (h : matchesFilter (bulkFilter q) d = true) : d.AxiomAttribute.isSome = true := by
  unfold matchesFilter at h
  have h1 := (List.all_eq_true.mp h) _ (bulkFilter_has_exists q)
  cases hx : d.AxiomAttribute with
  | none => simp [matchEntry, matchCond, StoredDoc.lookup, hx] at h1
  | some a => rfl

theorem selectDocs_subset (docs ds : List StoredDoc) (filter : M) (opt : FindOptions)
    (h : selectDocs docs filter opt = .ok ds) (d : StoredDoc) (hd : d ∈ ds) :
    d ∈ docs ∧ matchesFilter filter d = true := by
  unfold selectDocs at h
  simp only at h
  split at h
  · cases h
  · injection h with h
    subst h
    have h1 : d ∈ (sortDocs opt.SortSpec (docs.filter (matchesFilter filter))).drop
        (opt.Skip.getD 0).toNat := by
      unfold limitDocs at hd
      split at hd
      · exact hd
      · split at hd
        · exact hd
        · exact List.mem_of_mem_take hd
    have h2 : d ∈ sortDocs opt.SortSpec (docs.filter (matchesFilter filter)) :=
      List.mem_of_mem_drop h1
    have h3 : d ∈ docs.filter (matchesFilter filter) := by
      unfold sortDocs at h2
      split at h2
      · split at h2
        · split at h2
          · exact (List.perm_insertionSort _ _).mem_iff.mp h2
          · split at h2
            · exact (List.perm_insertionSort _ _).mem_iff.mp h2
            · exact h2
        · exact h2
      · exact h2
    exact List.mem_filter.mp h3

/-- C2: for every decoded query `q` the bulk filter holds the condition
`axiom: {$exists: true}` after all assignments; so over the list-backed
store, where a query returns only documents satisfying every filter entry,
every matching document has its derived attributes, and every record in the
response of the bulk handler is the decoding of a stored document that has
them. -/
theorem bulk_only_derived (q : QueryFilter) (docs : List StoredDoc) (values : UrlValues) :
    M.get (bulkFilter q) "axiom" = some (.doc [("$exists", .bool true)])
    ∧ (docs.filter (matchesFilter (bulkFilter q))).all
        (fun d => d.AxiomAttribute.isSome) = true
    ∧ (HandleBulkKillmailEndpoint (fun _ => .ok q) (listCollection docs) values).records.all
        (fun e => docs.any (fun d => d.AxiomAttribute.isSome
          && matchesFilter (bulkFilter q) d && decide (e = (d.KillID, d.decode)))) = true := by
  refine ⟨?_, ?_, ?_⟩
  · unfold bulkFilter
    by_cases ha : q.AllianceID > 0 <;> by_cases hc : q.CorporationID > 0 <;>
      by_cases hh : q.CharacterID > 0 <;>
      simp [ha, hc, hh, M.set, M.get, List.filter, List.find?]
  · rw [List.all_eq_true]
    intro d hd
    exact matchesFilter_derived q d (List.mem_filter.mp hd).2
  · cases hsel : selectDocs docs (bulkFilter q) (bulkFindOptions q) with
    | error e =>
      simp [BulkRun.records, bulk_run_listCollection_error q docs values e hsel, Chunk.records]
    | ok ds =>
      rw [List.all_eq_true]
      intro e he
      simp only [BulkRun.records, bulk_run_listCollection q docs ds values hsel] at he
      split at he
      case isFalse => simp at he
      simp only [List.flatMap_cons, List.flatMap_nil, Chunk.records, List.append_nil] at he
      rcases mem_collectDocs ds [] e he with h0 | ⟨d, hd, hed⟩
      · cases h0
      · obtain ⟨hdocs, hmatch⟩ := selectDocs_subset docs ds _ _ hsel d hd
        rw [List.any_eq_true]
        exact ⟨d, hdocs, by simp [matchesFilter_derived q d hmatch, hmatch, hed]⟩


/-! ### C3: pagination -/

theorem wrap64_of_fits (x : Int) (h : fitsSigned 64 x) : wrap64 x = x := by
  unfold fitsSigned at h
  unfold wrap64
  norm_num at h ⊢
  omega

theorem bulkSkip_of_fits (q : QueryFilter) (h : fitsSigned 64 (100 * q.Page)) :
    bulkSkip q = if q.Page > 0 then 100 * q.Page else 0 := by
  unfold bulkSkip
  split
  · rw [mul_comm, wrap64_of_fits _ h]
  · rfl

/-- C3: for every page value `p` for which `100 * p` fits a signed 64-bit
integer, the options of the bulk query have limit 100, sort by `_id`
descending, and skip `100 * p` when `p > 0` and 0 otherwise, and these are the
options the handler passes to `Find`; over the list-backed store the query
returns the matching documents sorted by id descending with the first
`100 * p` dropped and at most 100 taken, the response has status 200, and the
ids in its record map are those of that page, the map being written exactly
when every record of it marshals as JSON. -/
theorem bulk_pagination (q : QueryFilter) (docs : List StoredDoc) (values : UrlValues)
    (h : fitsSigned 64 (100 * q.Page)) :
    (bulkFindOptions q).Limit = some 100
    ∧ (bulkFindOptions q).SortSpec = some [("_id", .int (-1))]
    ∧ (bulkFindOptions q).Skip = some (if q.Page > 0 then 100 * q.Page else 0)
    ∧ (∀ col : Collection,
        (HandleBulkKillmailEndpoint (fun _ => .ok q) col values).finds.map Prod.snd
          = [bulkFindOptions q])
    ∧ selectDocs docs (bulkFilter q) (bulkFindOptions q) =
        .ok ((((docs.filter (matchesFilter (bulkFilter q))).insertionSort idDesc).drop
          (100 * q.Page).toNat).take 100)
    ∧ (HandleBulkKillmailEndpoint (fun _ => .ok q) (listCollection docs) values).w.status
        = some 200
    ∧ (∀ id : Int,
        id ∈ (HandleBulkKillmailEndpoint (fun _ => .ok q) (listCollection docs)
                values).records.map Prod.fst
        ↔ ((collectDocs ((((docs.filter (matchesFilter (bulkFilter q))).insertionSort
              idDesc).drop (100 * q.Page).toNat).take 100) []).all (fun p => p.2.encodes) = true
          ∧ id ∈ ((((docs.filter (matchesFilter (bulkFilter q))).insertionSort idDesc).drop
            (100 * q.Page).toNat).take 100).map (fun d => d.KillID))) := by
  have hskip := bulkSkip_of_fits q h
  have hsel : selectDocs docs (bulkFilter q) (bulkFindOptions q) =
      .ok ((((docs.filter (matchesFilter (bulkFilter q))).insertionSort idDesc).drop
        (100 * q.Page).toNat).take 100) := by
    simp only [selectDocs, bulkFindOptions, FindOptions.SetSkip, FindOptions.SetSort,
      FindOptions.SetLimit, FindOptions.Find, Option.getD_some, hskip, sortDocs, limitDocs]
    by_cases hp : q.Page > 0
    · have h1 : ¬ (100 * q.Page < 0) := by omega
      simp [hp, h1]
    · have h2 : (100 * q.Page).toNat = 0 := by
        apply Int.toNat_eq_zero.mpr
        omega
      simp [hp, h2]
  refine ⟨rfl, rfl, ?_, ?_, hsel, ?_, ?_⟩
  · simp [bulkFindOptions, FindOptions.SetSkip, hskip]
  · intro col
    unfold HandleBulkKillmailEndpoint
    simp only
    split <;> (try split) <;> (try split) <;> rfl
  · rw [bulk_run_listCollection q docs _ values hsel]
  · intro id
    simp only [BulkRun.records, bulk_run_listCollection q docs _ values hsel]
    split
    · rename_i henc
      simp only [List.flatMap_cons, List.flatMap_nil, Chunk.records, List.append_nil]
      rw [keys_collectDocs]
      simp [henc]
    · rename_i henc
      simp [henc]

set_option maxRecDepth 100000 in
/-- Witness of C3, the scenario of ids 1 to 250 and page 1: the product
fits, and the query returns exactly the ids 150 down to 51. -/
theorem bulk_pagination_witness :
    fitsSigned 64 (100 * pageOne.Page)
    ∧ selectIds docs250 (bulkFilter pageOne) (bulkFindOptions pageOne)
        = some ((List.range 100).map (fun i => (150 : Int) - i))
    ∧ (HandleBulkKillmailEndpoint (fun _ => .ok pageOne) (listCollection docs250)
        []).w.status = some 200 :=
  ⟨by decide, by decide, (bulk_pagination pageOne docs250 [] (by decide)).2.2.2.2.2.1⟩

/-! ### C6: the single-record endpoint -/

theorem listCollection_findOne (docs : List StoredDoc) (id : Int) :
    match (listCollection docs).FindOne [("_id", .int id)] with
    | .ok km => km.KillID = id ∧ docs.any (fun d => decide (d.KillID = id ∧ km = d.decode)) = true
    | .error e => e = ErrNoDocuments ∧ docs.all (fun d => decide (d.KillID ≠ id)) = true := by
  have hm : ∀ d : StoredDoc, matchesFilter [("_id", .int id)] d = decide (d.KillID = id) := by
    intro d
    by_cases hd : d.KillID = id
    · simp [matchesFilter, matchEntry, matchCond, StoredDoc.lookup, hd]
    · have hd' : ¬ (id = d.KillID) := fun e => hd e.symm
      simp [matchesFilter, matchEntry, matchCond, StoredDoc.lookup, hd, hd']
  simp only [listCollection]
  cases hf : docs.find? (matchesFilter [("_id", .int id)]) with
  | none =>
    refine ⟨rfl, ?_⟩
    rw [List.all_eq_true]
    intro d hd
    have := List.find?_eq_none.mp hf d hd
    rw [hm] at this
    simpa using this
  | some d =>
    have h1 := List.find?_some hf
    rw [hm] at h1
    have h2 := List.mem_of_find?_eq_some hf
    refine ⟨by simpa [StoredDoc.decode] using h1, ?_⟩
    rw [List.any_eq_true]
    exact ⟨d, h2, by simpa using h1⟩

theorem encode_fresh (km : KillmailData) (h : km.encodes = true) :
    (ResponseWriter.HeaderSet {} "Content-Type" "application/json").Encode (.jsonKill km) =
      { header := [("Content-Type", "application/json")], status := some 200,
        body := [.jsonKill km] } := by
  simp [ResponseWriter.Encode, Chunk.encodes, h, ResponseWriter.Write,
    ResponseWriter.WriteHeader, ResponseWriter.HeaderSet]

theorem encode_finish_status (w : ResponseWriter) (c : Chunk) :
    (w.Encode c).finish.status = some (w.status.getD 200) := by
  cases hs : w.status <;>
    by_cases hc : c.encodes = true <;>
    simp [ResponseWriter.Encode, ResponseWriter.finish, ResponseWriter.Write,
      ResponseWriter.WriteHeader, hs, hc]

/-- C6, amended: for every path parameter `ids`: when `Atoi` fails the
response is status 400 with the non-empty error body and no lookup is issued;
otherwise exactly one lookup with filter `_id = id` is issued, the response is
status 500 with the non-empty error body when the lookup fails (no record or
a store error), and when it succeeds the status sent is 200 and the body is
the found record provided the record marshals as JSON; over the list-backed
store the found record has the requested id, and a failed lookup means no
stored document has it. -/
theorem single_endpoint (col : Collection) (docs : List StoredDoc) (ids : String) :
    match Atoi ids with
    | .error err =>
      (HandleSingleKillmailEndpoint col ids).w.status = some 400
      ∧ (HandleSingleKillmailEndpoint col ids).w.body = [.text (error_print err.Error)]
      ∧ error_print err.Error ≠ ""
      ∧ (HandleSingleKillmailEndpoint col ids).lookups = []
    | .ok id =>
      (HandleSingleKillmailEndpoint col ids).lookups = [[("_id", .int id)]]
      ∧ (match col.FindOne [("_id", .int id)] with
         | .error e =>
           (HandleSingleKillmailEndpoint col ids).w.status = some 500
           ∧ (HandleSingleKillmailEndpoint col ids).w.body = [.text (error_print e)]
           ∧ error_print e ≠ ""
         | .ok km =>
           (HandleSingleKillmailEndpoint col ids).w.finish.status = some 200
           ∧ (km.encodes = true →
               (HandleSingleKillmailEndpoint col ids).w.status = some 200
               ∧ (HandleSingleKillmailEndpoint col ids).w.body = [.jsonKill km]))
      ∧ (match (listCollection docs).FindOne [("_id", .int id)] with
         | .ok km =>
           km.KillID = id ∧ docs.any (fun d => decide (d.KillID = id ∧ km = d.decode)) = true
         | .error e =>
           e = ErrNoDocuments ∧ docs.all (fun d => decide (d.KillID ≠ id)) = true) := by
  cases ha : Atoi ids with
  | error err =>
    have hrun : HandleSingleKillmailEndpoint col ids =
        { w := ((ResponseWriter.HeaderSet {} "Content-Type" "application/json").WriteHeader
                  StatusBadRequest).Fprint (error_print err.Error),
          lookups := [] } := by
      simp only [HandleSingleKillmailEndpoint, ha]
    rw [hrun]
    exact ⟨rfl, rfl, error_print_ne_empty _, rfl⟩
  | ok id =>
    refine ⟨?_, ?_, listCollection_findOne docs id⟩
    · simp only [HandleSingleKillmailEndpoint, ha]
      split <;> rfl
    · cases hf : col.FindOne [("_id", .int id)] with
      | error e =>
        have hrun : HandleSingleKillmailEndpoint col ids =
            { w := ((ResponseWriter.HeaderSet {} "Content-Type" "application/json").WriteHeader
                      StatusInternalServerError).Fprint (error_print e),
              lookups := [[("_id", .int id)]] } := by
          simp only [HandleSingleKillmailEndpoint, ha, hf]
        rw [hrun]
        exact ⟨rfl, rfl, error_print_ne_empty _⟩
      | ok km =>
        have hrun : HandleSingleKillmailEndpoint col ids =
            { w := (ResponseWriter.HeaderSet {} "Content-Type" "application/json").Encode
                      (.jsonKill km),
              lookups := [[("_id", .int id)]] } := by
          simp only [HandleSingleKillmailEndpoint, ha, hf]
        rw [hrun]
        refine ⟨?_, ?_⟩
        · rw [encode_finish_status]
          rfl
        · intro henc
          rw [encode_fresh km henc]
          exact ⟨rfl, rfl⟩

/-- Witness of C6 amended: for the stored record 1, which marshals, the
path parameter `1` is answered with status 200 and that record. -/
theorem single_endpoint_witness :
    (sampleDoc 1).decode.encodes = true
    ∧ (HandleSingleKillmailEndpoint (listCollection [sampleDoc 1]) "1").w.status = some 200
    ∧ (HandleSingleKillmailEndpoint (listCollection [sampleDoc 1]) "1").w.body
        = [.jsonKill (sampleDoc 1).decode] := by
  have h := single_endpoint (listCollection [sampleDoc 1]) [sampleDoc 1] "1"
  simp only [show Atoi "1" = .ok 1 from rfl,
    show (listCollection [sampleDoc 1]).FindOne [("_id", .int 1)] = .ok (sampleDoc 1).decode
      from rfl] at h
  exact ⟨by decide, h.2.1.2 (by decide)⟩

/-- C6 as stated fails: the stored record 7 holds a NaN coordinate; the
path parameter `7` parses, the lookup succeeds with that record, and the
response is status 200 with an empty body, not the found record. -/
theorem single_endpoint_nan_empty_body :
    Atoi "7" = .ok 7
    ∧ (listCollection [nanDoc]).FindOne [("_id", .int 7)] = .ok nanDoc.decode
    ∧ (HandleSingleKillmailEndpoint (listCollection [nanDoc]) "7").w.finish.status = some 200
    ∧ (HandleSingleKillmailEndpoint (listCollection [nanDoc]) "7").w.body = []
    ∧ (HandleSingleKillmailEndpoint (listCollection [nanDoc]) "7").w.body
        ≠ [.jsonKill nanDoc.decode] := by
  refine ⟨rfl, rfl, by decide, by decide, by decide⟩

/-! ### C4: the status of the bulk handler's error responses -/

theorem bulk_status_always_200 (decode : UrlValues → Except String QueryFilter)
    (col : Collection) (values : UrlValues) :
    (HandleBulkKillmailEndpoint decode col values).w.status = some 200 := by
  unfold HandleBulkKillmailEndpoint
  simp only
  split
  · rfl
  · split
    · rfl
    · split
      · rfl
      · split
        · rfl
        · simp only [ResponseWriter.Encode]
          split <;> rfl

/-- C4, evaluated: on every error path of the bulk handler the body is
written before `WriteHeader` is called, so the committed status is 200, not
400 or 500: for the unknown parameter `foo=bar`, for a failing store query,
for a document that does not decode and for a cursor error. The body is the
structured error body alone. -/
theorem bulk_error_status_is_200 :
    ((HandleBulkKillmailEndpoint schemaDecode (listCollection docs250)
        [("foo", ["bar"])]).w.status = some 200
      ∧ (HandleBulkKillmailEndpoint schemaDecode (listCollection docs250)
        [("foo", ["bar"])]).w.body
          = [.text (error_print "schema: invalid path \x22foo\x22")])
    ∧ ((HandleBulkKillmailEndpoint schemaDecode failingFind []).w.status = some 200
      ∧ (HandleBulkKillmailEndpoint schemaDecode failingFind []).w.body
          = [.text (error_print "connection refused")])
    ∧ ((HandleBulkKillmailEndpoint schemaDecode undecodable []).w.status = some 200
      ∧ (HandleBulkKillmailEndpoint schemaDecode undecodable []).w.body
          = [.text (error_print "cannot decode")])
    ∧ ((HandleBulkKillmailEndpoint schemaDecode brokenCursor []).w.status = some 200
      ∧ (HandleBulkKillmailEndpoint schemaDecode brokenCursor []).w.body
          = [.text (error_print "cursor failed")]) := by
  refine ⟨⟨?_, ?_⟩, ⟨?_, ?_⟩, ⟨?_, ?_⟩, ⟨?_, ?_⟩⟩ <;> rfl

/-! ### C5: closing the cursor -/

/-- C5, evaluated: the cursor is closed once when the run succeeds, and
not at all when a document fails to decode or when the cursor reports an
error, although `Find` returned a cursor in each case. -/
theorem bulk_cursor_closes :
    ((HandleBulkKillmailEndpoint schemaDecode undecodable []).cursors = 1
      ∧ (HandleBulkKillmailEndpoint schemaDecode undecodable []).closes = 0)
    ∧ ((HandleBulkKillmailEndpoint schemaDecode brokenCursor []).cursors = 1
      ∧ (HandleBulkKillmailEndpoint schemaDecode brokenCursor []).closes = 0)
    ∧ ((HandleBulkKillmailEndpoint schemaDecode (listCollection [sampleDoc 1]) []).cursors = 1
      ∧ (HandleBulkKillmailEndpoint schemaDecode (listCollection [sampleDoc 1]) []).closes
          = 1) := by
  refine ⟨⟨?_, ?_⟩, ⟨?_, ?_⟩, ⟨?_, ?_⟩⟩ <;> rfl

/-! ### C7: the `axiom` key of an encoded record -/

theorem toJSON_has_derived_key (km : KillmailData) :
    km.toJSON.keys = ["_id", "killmail", "axiom"] := by
  simp [KillmailData.toJSON, jsonField, isEmptyValue, JSON.keys]

/-- C7, evaluated: the record with the zero `FittingAttributes` (no Ship
map, no Drones list), as the single-record handler returns it for a stored
document without derived attributes, is encoded with the key `axiom`, whose
value is the empty object. -/
theorem bare_record_has_derived_key :
    (HandleSingleKillmailEndpoint (listCollection [bareDoc]) "1").w.body = [.jsonKill bareRecord]
    ∧ bareRecord.AxiomAttribute = { Ship := none, Drones := none }
    ∧ bareRecord.toJSON.keys = ["_id", "killmail", "axiom"]
    ∧ bareRecord.toJSON.field "axiom" = some (.obj []) := by
  refine ⟨?_, ?_, ?_, ?_⟩ <;> rfl

/-! ### C9: the error body as JSON -/

theorem scanString_dquote (rest : List Char) : scanString (dquote :: rest) = some ([], rest) := by
  simp [scanString, scanFrom]

theorem scanString_plain (c : Char) (cs : List Char) (h1 : c ≠ dquote) (h2 : c ≠ backslash)
    (h3 : 32 ≤ c.toNat) :
    scanString (c :: cs) = consRead c (scanString cs) := by
  have h4 : ¬ c.toNat < 32 := by omega
  simp [scanString, scanFrom, h1, h2, h4]

theorem scanString_clean (cs rest : List Char)
    (h : ∀ c ∈ cs, c ≠ backslash ∧ 32 ≤ c.toNat) :
    scanString (cs.flatMap quoteSubst ++ dquote :: rest) = some (cs.flatMap quoteSubst, rest) := by
  induction cs with
  | nil => exact scanString_dquote rest
  | cons c cs ih =>
    have hc := h c (List.mem_cons_self _ _)
    have ih1 := ih (fun x hx => h x (List.mem_cons_of_mem _ hx))
    by_cases hq : c = dquote
    · subst hq
      have e1 : quoteSubst dquote = [squote, squote] := by simp [quoteSubst]
      simp only [List.flatMap_cons, e1, List.cons_append, List.nil_append]
      rw [scanString_plain squote _ (by decide) (by decide) (by decide),
        scanString_plain squote _ (by decide) (by decide) (by decide), ih1]
      rfl
    · have e1 : quoteSubst c = [c] := by simp [quoteSubst, hq]
      simp only [List.flatMap_cons, e1, List.cons_append, List.nil_append]
      rw [scanString_plain c _ hq hc.1 hc.2, ih1]
      rfl

theorem parseMessageObject_of_value (tail value : List Char)
    (h : scanString tail = some (value, [' ', Char.ofNat 125])) :
    parseMessageObject (errorOpen.data ++ tail) = some value := by
  have ho : errorOpen.data = [Char.ofNat 123, ' ', dquote, 'm', 'e', 's', 's', 'a', 'g', 'e',
      dquote, ' ', ':', ' ', dquote] := by decide
  have hkey : scanString ('m' :: 'e' :: 's' :: 's' :: 'a' :: 'g' :: 'e' :: dquote :: ' ' :: ':'
      :: ' ' :: dquote :: tail) = some ("message".data, ' ' :: ':' :: ' ' :: dquote :: tail) := by
    iterate 7 rw [scanString_plain _ _ (by decide) (by decide) (by decide)]
    rw [scanString_dquote]
    rfl
  have h1 : ∀ rest : List Char, skipWs (Char.ofNat 123 :: rest) = Char.ofNat 123 :: rest :=
    fun _ => rfl
  have h2 : ∀ rest : List Char, skipWs (' ' :: dquote :: rest) = dquote :: rest := fun _ => rfl
  have h3 : ∀ rest : List Char, skipWs (' ' :: ':' :: rest) = ':' :: rest := fun _ => rfl
  have h4 : skipWs [' ', Char.ofNat 125] = [Char.ofNat 125] := rfl
  have h5 : ∀ (c : Char) (rest : List Char), expectChar c (c :: rest) = some rest := by
    intro c rest
    simp [expectChar]
  have h6 : skipWs [] = [] := rfl
  unfold parseMessageObject
  rw [ho]
  simp only [List.cons_append, List.nil_append, h1, h2, h3, h4, h5, h6, hkey, h, Option.some_bind,
    if_true]

/-- For an error text without backslash and control characters the body of
`error_print` is a well-formed `message` object. -/
theorem error_print_json_of_clean (e : String)
    (h : ∀ c ∈ e.data, c ≠ backslash ∧ 32 ≤ c.toNat) :
    isMessageObject (error_print e) = true := by
  have hrep : ReplaceAll e (String.mk [dquote]) (String.mk [squote, squote])
      = String.mk (e.data.flatMap quoteSubst) := by
    simp [ReplaceAll, replaceScan_dquote]
  have hc : errorClose.data = [dquote, ' ', Char.ofNat 125] := by decide
  have hdata : (error_print e).data =
      errorOpen.data ++ (e.data.flatMap quoteSubst ++ dquote :: [' ', Char.ofNat 125]) := by
    simp only [error_print, hrep, String.data_append, hc, List.append_assoc]
  unfold isMessageObject
  rw [hdata, parseMessageObject_of_value _ _ (scanString_clean _ _ h)]
  rfl

/-- C9, evaluated: for the error text of one backslash, for a text with a
line feed, and for the error of the single-record endpoint on the path
parameter `a"b`, the body of `error_print` is not a well-formed JSON object
with a string field `message`; for a plain text it is. -/
theorem error_print_not_json :
    isMessageObject (error_print "\x5c") = false
    ∧ isMessageObject (error_print "line one\x0aline two") = false
    ∧ (HandleSingleKillmailEndpoint failingFind "a\x22b").w.body
        = [.text (error_print "strconv.Atoi: parsing \x22a\x5c\x22b\x22: invalid syntax")]
    ∧ isMessageObject
        (error_print "strconv.Atoi: parsing \x22a\x5c\x22b\x22: invalid syntax") = false
    ∧ isMessageObject (error_print "mongo: no documents in result") = true := by
  refine ⟨?_, ?_, ?_, ?_, ?_⟩ <;> decide

/-! ### C10: the sign of the skip -/

/-- C10, evaluated: page 92233720368547759 fits a signed 64-bit integer
and is accepted by the decoder, its product with 100 wraps, and the skip the
handler passes to `Find` is -9223372036854775716, a negative number. -/
theorem bulk_skip_negative :
    fitsSigned 64 overflowPage
    ∧ schemaDecode [("page", ["92233720368547759"])] = .ok { Page := overflowPage }
    ∧ bulkSkip { Page := overflowPage } = -9223372036854775716
    ∧ (∀ col : Collection,
        (HandleBulkKillmailEndpoint schemaDecode col
          [("page", ["92233720368547759"])]).finds.map (fun f => f.2.Skip)
          = [some (-9223372036854775716)]) := by
  refine ⟨by decide, by rfl, by decide, ?_⟩
  intro col
  have hd : schemaDecode [("page", ["92233720368547759"])] = .ok { Page := overflowPage } := by
    rfl
  have hs : bulkSkip { Page := overflowPage } = -9223372036854775716 := by decide
  unfold HandleBulkKillmailEndpoint
  simp only [hd]
  split <;> (try split) <;> (try split) <;>
    simp [bulkFindOptions, FindOptions.SetSkip, hs]

end Api
